import Mathlib

/-!
Verification development for the evalplus `codegen/model.py` decoding layer.

Python strings are embedded as `List Char`; the module's string operations
(`in`, `.index`, slicing with a negative stop index, `.replace`) are given
shallow embeddings below, and each decoder's `codegen` control flow is
embedded as a pure function that returns either an assertion failure or the
request it issues together with the completions produced from an abstract
backend oracle.
-/

namespace Evalplus

/-- Characters of a Python string literal. -/
def chars (x : String) : List Char := x.toList

/-- Python `nee in hay` (substring test, `True` for the empty needle). -/
def pyContains (hay nee : List Char) : Bool :=
  nee.isPrefixOf hay ||
    match hay with
    | [] => false
    | _ :: t => pyContains t nee

/-- Python `hay.index(nee)`: index of the first occurrence of `nee` in `hay`
(meaningful only when `pyContains hay nee = true`; Python raises otherwise). -/
def pyIndex (hay nee : List Char) : Nat :=
  if nee.isPrefixOf hay then 0
  else
    match hay with
    | [] => 0
    | _ :: t => pyIndex t nee + 1

/-- Python `text.replace(c, rep)` for a one-character pattern `c`. -/
def pyReplaceChar (c : Char) (rep : List Char) : List Char → List Char
  | [] => []
  | a :: t => if a = c then rep ++ pyReplaceChar c rep t else a :: pyReplaceChar c rep t

/-- The module-level stop-marker list `EOS` (model.py line 46). -/
def EOS : List (List Char) :=
  [chars "<|endoftext|>", chars "<|endofmask|>", chars "</s>"]

/-- The `min_index` computation of the shared output-trimming loop
(model.py lines 416-421, and the identical loops at 643-648, 699-704,
755-760, 811-816, 872-878, 960-965): starting from the sentinel `10000`,
fold over the stop markers and take the minimum first-occurrence index of
every marker occurring in `output`. -/
def trimMinIndex (eosList : List (List Char)) (output : List Char) : Nat :=
  eosList.foldl
    (fun m e => if pyContains output e = true then min m (pyIndex output e) else m)
    10000

/-- The output-trimming step `output[:min_index]` (model.py line 422). -/
def trimOutput (eosList : List (List Char)) (output : List Char) : List Char :=
  output.take (trimMinIndex eosList output)

/- ### Basic facts about the string embedding -/

theorem pyContains_cons (a : Char) (t nee : List Char) :
    pyContains (a :: t) nee = (nee.isPrefixOf (a :: t) || pyContains t nee) := rfl

theorem pyContains_nil_of_ne (nee : List Char) (hne : nee ≠ []) :
    pyContains [] nee = false := by
  cases nee with
  | nil => exact absurd rfl hne
  | cons c t => simp [pyContains, List.isPrefixOf]

theorem isPrefixOf_false_of_head (a : Char) (t : List Char) (c : Char) (r : List Char)
    (hca : c ≠ a) : (c :: r).isPrefixOf (a :: t) = false := by
  simp [List.isPrefixOf]
  intro hc
  exact absurd hc hca

/-- A needle whose first character differs from `c` never occurs in
`List.replicate n c`. -/
theorem pyContains_replicate_false (c cc : Char) (rest : List Char) (hcc : cc ≠ c) :
    ∀ n : Nat, pyContains (List.replicate n c) (cc :: rest) = false := by
  intro n
  induction n with
  | zero => exact pyContains_nil_of_ne _ (by simp)
  | succ k ih =>
      rw [List.replicate_succ, pyContains_cons,
        isPrefixOf_false_of_head c (List.replicate k c) cc rest hcc]
      simpa using ih

/-- The first-occurrence index of a nonempty occurring needle leaves room for
the needle inside the haystack. -/
theorem pyIndex_add_length_le (hay nee : List Char)
    (h : pyContains hay nee = true) (hne : nee ≠ []) :
    pyIndex hay nee + nee.length ≤ hay.length := by
  induction hay with
  | nil => rw [pyContains_nil_of_ne nee hne] at h; exact absurd h (by simp)
  | cons a t ih =>
      by_cases hp : nee.isPrefixOf (a :: t) = true
      · have hpre : nee <+: (a :: t) := (List.isPrefixOf_iff_prefix).mp hp
        have hlen := hpre.length_le
        have h0 : pyIndex (a :: t) nee = 0 := by simp [pyIndex, hp]
        rw [h0]
        simpa using hlen
      · have hc : pyContains t nee = true := by
          rw [pyContains_cons] at h
          cases hx : pyContains t nee with
          | true => rfl
          | false =>
              rw [hx, Bool.or_false] at h
              exact absurd h hp
        have hb := ih hc
        have h1 : pyIndex (a :: t) nee = pyIndex t nee + 1 := by
          simp [pyIndex, hp]
        rw [h1]
        simp only [List.length_cons]
        omega

/- ### Facts about the trimming fold -/

theorem trimFold_le_init (out : List Char) (L : List (List Char)) (a : Nat) :
    L.foldl (fun m e => if pyContains out e = true then min m (pyIndex out e) else m) a ≤ a := by
  induction L generalizing a with
  | nil => simp
  | cons e L ih =>
      simp only [List.foldl_cons]
      by_cases h : pyContains out e = true
      · rw [if_pos h]
        exact le_trans (ih (min a (pyIndex out e))) (min_le_left _ _)
      · rw [if_neg h]
        exact ih a

theorem trimFold_le_mem (out : List Char) (e : List Char) (hc : pyContains out e = true) :
    ∀ (L : List (List Char)) (a : Nat), e ∈ L →
      L.foldl (fun m x => if pyContains out x = true then min m (pyIndex out x) else m) a
        ≤ pyIndex out e := by
  intro L
  induction L with
  | nil => intro a h; cases h
  | cons e0 L ih =>
      intro a he
      simp only [List.foldl_cons]
      rcases List.mem_cons.mp he with rfl | hmem
      · rw [if_pos hc]
        exact le_trans (trimFold_le_init out L _) (min_le_right _ _)
      · by_cases h0 : pyContains out e0 = true
        · rw [if_pos h0]; exact ih _ hmem
        · rw [if_neg h0]; exact ih _ hmem

theorem trimMinIndex_of_no_marker (out : List Char) (L : List (List Char))
    (h : ∀ e ∈ L, pyContains out e = false) : trimMinIndex L out = 10000 := by
  unfold trimMinIndex
  induction L with
  | nil => simp
  | cons e L ih =>
      simp only [List.foldl_cons]
      rw [if_neg (by rw [h e (List.mem_cons_self e L)]; simp)]
      exact ih (fun x hx => h x (List.mem_cons_of_mem e hx))

/- ### Claim C1: the output trimmer -/

/-- C1 (amended): for every marker set the trimming step returns a prefix of
the input text; and provided every marker is nonempty and the text is at most
10000 characters long (the sentinel used by the code), the result equals the
text if and only if no marker is a substring of the text. -/
theorem c1_trim_prefix_iff (markers : List (List Char)) (text : List Char)
    (hne : ∀ m ∈ markers, m ≠ []) (hlen : text.length ≤ 10000) :
    (∀ t : List Char, ∀ ms : List (List Char), trimOutput ms t ++ t.drop (trimMinIndex ms t) = t) ∧
    (trimOutput markers text = text ↔ ∀ m ∈ markers, pyContains text m = false) := by
  constructor
  · intro t ms
    exact List.take_append_drop _ t
  · constructor
    · intro heq
      intro m hm
      by_contra hc
      have hc' : pyContains text m = true := by
        cases hx : pyContains text m with
        | true => rfl
        | false => exact absurd hx hc
      have hbound := pyIndex_add_length_le text m hc' (hne m hm)
      have hmlen : 0 < m.length := List.length_pos.mpr (hne m hm)
      have hidx : pyIndex text m < text.length := by omega
      have hmin : trimMinIndex markers text ≤ pyIndex text m :=
        trimFold_le_mem text m hc' markers 10000 hm
      have hlt : trimMinIndex markers text < text.length := lt_of_le_of_lt hmin hidx
      have hlen2 : (trimOutput markers text).length = trimMinIndex markers text := by
        unfold trimOutput
        rw [List.length_take]
        omega
      have := congrArg List.length heq
      rw [hlen2] at this
      omega
    · intro hnone
      unfold trimOutput
      rw [trimMinIndex_of_no_marker text markers hnone]
      exact List.take_of_length_le hlen

/-- C1 witness: a concrete application of `c1_trim_prefix_iff` at the base
stop-marker set, together with an evaluation of the trimmer on a text that
contains `<|endoftext|>`. -/
theorem c1_trim_prefix_iff_witness :
    ((trimOutput EOS (chars "ab<|endoftext|>cd") = chars "ab<|endoftext|>cd" ↔
        ∀ m ∈ EOS, pyContains (chars "ab<|endoftext|>cd") m = false) ∧
      trimOutput EOS (chars "ab<|endoftext|>cd") = chars "ab") :=
  ⟨(c1_trim_prefix_iff EOS (chars "ab<|endoftext|>cd") (by decide) (by decide)).2,
    by decide⟩

/-- C1 counterexample: on a 10001-character text containing no marker, the
trimming step does not return the text unchanged (it truncates at the
sentinel index 10000), refuting the unrestricted "unchanged iff no marker is
a substring" claim. -/
theorem c1_counterexample :
    pyContains (List.replicate 10001 'a') (chars "<|endoftext|>") = false ∧
    trimOutput [chars "<|endoftext|>"] (List.replicate 10001 'a') ≠
      List.replicate 10001 'a' := by
  have hsplit : chars "<|endoftext|>" = '<' :: chars "|endoftext|>" := rfl
  have hnc : pyContains (List.replicate 10001 'a') (chars "<|endoftext|>") = false := by
    rw [hsplit]
    exact pyContains_replicate_false 'a' '<' (chars "|endoftext|>") (by decide) 10001
  refine ⟨hnc, ?_⟩
  have hidx : trimMinIndex [chars "<|endoftext|>"] (List.replicate 10001 'a') = 10000 := by
    exact trimMinIndex_of_no_marker _ _ (by intro e he; simp at he; rw [he]; exact hnc)
  intro heq
  have := congrArg List.length heq
  unfold trimOutput at this
  rw [hidx, List.length_take, List.length_replicate] at this
  omega

/- ### EndOfFunctionCriteria (model.py lines 50-86) -/

/-- Length of the Python slice `row[start : -L]` (used at model.py lines
73-84 to record a completion length, where `L` is the token length of the
re-encoded stop marker).  For `L = 0` Python's `-0` is `0`, so the slice is
empty; otherwise the stop index is `len(row) - L` clamped at `0`. -/
def pySliceNegLen (row : List Nat) (start L : Nat) : Nat :=
  (if L = 0 then 0 else row.length - L) - start

/-- State of `EndOfFunctionCriteria` (model.py lines 51-56): the input
offset, the stop-marker list, and the dictionary `end_length` mapping a
sequence index to its recorded completion length. -/
structure EndOfFunctionCriteria where
  start_length : Nat
  eos : List (List Char)
  end_length : List (Nat × Nat)

/-- `any([stop_string in decoded_generation for stop_string in self.eos])`
(model.py lines 65-67). -/
def eofFinished (eos : List (List Char)) (d : List Char) : Bool :=
  eos.any fun st => pyContains d st

/-- The inner `for stop_string in self.eos` loop (model.py lines 71-84):
for each marker occurring in the decoded text it overwrites
`end_length[index]` with the length of `input_ids[index, start_length:-L]`,
so the net recorded value comes from the last matching marker. -/
def eofRecordValue (te : List Char → List Nat) (eos : List (List Char))
    (d : List Char) (row : List Nat) (start : Nat) : Option Nat :=
  eos.foldl
    (fun acc st =>
      if pyContains d st = true then some (pySliceNegLen row start (te st).length) else acc)
    none

/-- Body of the `for index, decoded_generation in enumerate(...)` loop
(model.py lines 64-85) restricted to its effect on `end_length`: a sequence
index is recorded only when some marker occurs in its decoded suffix and the
index is not yet present (`index not in self.end_length`, line 69). -/
def eofFoldStep (te : List Char → List Nat) (eos : List (List Char)) (start : Nat)
    (dec : List (List Char)) (ids : List (List Nat))
    (el : List (Nat × Nat)) (i : Nat) : List (Nat × Nat) :=
  if eofFinished eos (dec.getD i []) = true ∧ el.lookup i = none then
    match eofRecordValue te eos (dec.getD i []) (ids.getD i []) start with
    | some v => (i, v) :: el
    | none => el
  else el

/-- One `__call__` of `EndOfFunctionCriteria` (model.py lines 58-86): decode
every sequence from `start_length` on, update `end_length`, and return
whether every sequence is finished.  `td`/`te` are the tokenizer's decode
and encode maps, treated as opaque. -/
def eofStep (td : List Nat → List Char) (te : List Char → List Nat)
    (c : EndOfFunctionCriteria) (ids : List (List Nat)) :
    EndOfFunctionCriteria × Bool :=
  let dec := ids.map fun row => td (row.drop c.start_length)
  let el := (List.range ids.length).foldl (eofFoldStep te c.eos c.start_length dec ids) c.end_length
  ({ c with end_length := el }, dec.all fun d => eofFinished c.eos d)

/-- Unfolding equation for the `end_length` component of `eofStep`. -/
theorem eofStep_end_length (td : List Nat → List Char) (te : List Char → List Nat)
    (c : EndOfFunctionCriteria) (ids : List (List Nat)) :
    (eofStep td te c ids).1.end_length =
      (List.range ids.length).foldl
        (eofFoldStep te c.eos c.start_length (ids.map fun row => td (row.drop c.start_length)) ids)
        c.end_length := rfl

/-- A sequence of `__call__` invocations on successive batches. -/
def eofRun (td : List Nat → List Char) (te : List Char → List Nat)
    (c : EndOfFunctionCriteria) (batches : List (List (List Nat))) :
    EndOfFunctionCriteria :=
  batches.foldl (fun st ids => (eofStep td te st ids).1) c

/-- The decoded suffix of sequence `i`. -/
def decodedAt (td : List Nat → List Char) (c : EndOfFunctionCriteria)
    (ids : List (List Nat)) (i : Nat) : List Char :=
  td ((ids.getD i []).drop c.start_length)

/-- Generated token count of sequence `i` (tokens past `start_length`). -/
def genLenAt (c : EndOfFunctionCriteria) (ids : List (List Nat)) (i : Nat) : Nat :=
  (ids.getD i []).length - c.start_length

/- ### Lemmas about the end-length bookkeeping -/

theorem getD_map_lt (f : List Nat → List Char) (l : List (List Nat)) (i : Nat)
    (h : i < l.length) : (l.map f).getD i [] = f (l.getD i []) := by
  rw [List.getD_eq_getElem?_getD, List.getD_eq_getElem?_getD, List.getElem?_map,
    List.getElem?_eq_getElem h]
  rfl

theorem eofFoldStep_lookup_ne (te : List Char → List Nat) (eos : List (List Char))
    (start : Nat) (dec : List (List Char)) (ids : List (List Nat))
    (el : List (Nat × Nat)) (i j : Nat) (hij : i ≠ j) :
    (eofFoldStep te eos start dec ids el j).lookup i = el.lookup i := by
  unfold eofFoldStep
  by_cases hcond : (eofFinished eos (dec.getD j []) = true ∧ el.lookup j = none)
  · rw [if_pos hcond]
    cases hrv : eofRecordValue te eos (dec.getD j []) (ids.getD j []) start with
    | none => rfl
    | some w => simp [List.lookup, beq_eq_false_iff_ne.mpr hij]
  · rw [if_neg hcond]

theorem eofFold_preserve (te : List Char → List Nat) (eos : List (List Char))
    (start : Nat) (dec : List (List Char)) (ids : List (List Nat)) :
    ∀ (L : List Nat) (el : List (Nat × Nat)) (i v : Nat),
      el.lookup i = some v →
      (L.foldl (eofFoldStep te eos start dec ids) el).lookup i = some v := by
  intro L
  induction L with
  | nil => intro el i v h; simpa using h
  | cons j L ih =>
      intro el i v h
      simp only [List.foldl_cons]
      apply ih
      by_cases hij : i = j
      · subst hij
        unfold eofFoldStep
        rw [if_neg (by rw [h]; simp)]
        exact h
      · rw [eofFoldStep_lookup_ne te eos start dec ids el i j hij]
        exact h

theorem eofFold_untouched (te : List Char → List Nat) (eos : List (List Char))
    (start : Nat) (dec : List (List Char)) (ids : List (List Nat)) :
    ∀ (L : List Nat) (el : List (Nat × Nat)) (i : Nat), i ∉ L →
      (L.foldl (eofFoldStep te eos start dec ids) el).lookup i = el.lookup i := by
  intro L
  induction L with
  | nil => intro el i _; rfl
  | cons j L ih =>
      intro el i hi
      simp only [List.foldl_cons]
      have hij : i ≠ j := fun h => hi (h ▸ List.mem_cons_self j L)
      rw [ih _ i (fun h => hi (List.mem_cons_of_mem j h))]
      exact eofFoldStep_lookup_ne te eos start dec ids el i j hij

theorem eofFold_origin (te : List Char → List Nat) (eos : List (List Char))
    (start : Nat) (dec : List (List Char)) (ids : List (List Nat)) :
    ∀ (L : List Nat) (el : List (Nat × Nat)) (i v : Nat),
      (L.foldl (eofFoldStep te eos start dec ids) el).lookup i = some v →
      el.lookup i = some v ∨
        eofRecordValue te eos (dec.getD i []) (ids.getD i []) start = some v := by
  intro L
  induction L with
  | nil => intro el i v h; exact Or.inl (by simpa using h)
  | cons j L ih =>
      intro el i v h
      simp only [List.foldl_cons] at h
      rcases ih _ i v h with h1 | h2
      · by_cases hij : i = j
        · subst hij
          unfold eofFoldStep at h1
          by_cases hcond : (eofFinished eos (dec.getD i []) = true ∧ el.lookup i = none)
          · rw [if_pos hcond] at h1
            cases hrv : eofRecordValue te eos (dec.getD i []) (ids.getD i []) start with
            | none => rw [hrv] at h1; exact Or.inl h1
            | some w =>
                rw [hrv] at h1
                simp [List.lookup] at h1
                exact Or.inr (by rw [h1])
          · rw [if_neg hcond] at h1; exact Or.inl h1
        · rw [eofFoldStep_lookup_ne te eos start dec ids el i j hij] at h1
          exact Or.inl h1
      · exact Or.inr h2

theorem eofRecordValue_ne_none_of_acc (te : List Char → List Nat) (d : List Char)
    (row : List Nat) (start : Nat) :
    ∀ (L : List (List Char)) (acc : Option Nat), acc ≠ none →
      L.foldl
        (fun acc st =>
          if pyContains d st = true then some (pySliceNegLen row start (te st).length) else acc)
        acc ≠ none := by
  intro L
  induction L with
  | nil => intro acc h; simpa using h
  | cons st L ih =>
      intro acc h
      simp only [List.foldl_cons]
      apply ih
      by_cases hc : pyContains d st = true
      · rw [if_pos hc]; simp
      · rw [if_neg hc]; exact h

theorem eofRecordValue_isSome (te : List Char → List Nat) (eos : List (List Char))
    (d : List Char) (row : List Nat) (start : Nat)
    (h : eofFinished eos d = true) :
    eofRecordValue te eos d row start ≠ none := by
  unfold eofFinished at h
  rcases List.any_eq_true.mp h with ⟨st, hst, hc⟩
  unfold eofRecordValue
  clear h
  induction eos with
  | nil => cases hst
  | cons st0 L ih =>
      simp only [List.foldl_cons]
      rcases List.mem_cons.mp hst with rfl | hmem
      · rw [if_pos hc]
        exact eofRecordValue_ne_none_of_acc te d row start L _ (by simp)
      · by_cases h0 : pyContains d st0 = true
        · rw [if_pos h0]
          exact eofRecordValue_ne_none_of_acc te d row start L _ (by simp)
        · rw [if_neg h0]
          exact ih hmem

theorem eofRecordValue_elim (te : List Char → List Nat) (d : List Char)
    (row : List Nat) (start : Nat) :
    ∀ (L : List (List Char)) (acc : Option Nat) (v : Nat),
      L.foldl
        (fun acc st =>
          if pyContains d st = true then some (pySliceNegLen row start (te st).length) else acc)
        acc = some v →
      (∃ st ∈ L, pyContains d st = true ∧ v = pySliceNegLen row start (te st).length) ∨
        acc = some v := by
  intro L
  induction L with
  | nil => intro acc v h; exact Or.inr (by simpa using h)
  | cons st L ih =>
      intro acc v h
      simp only [List.foldl_cons] at h
      rcases ih _ v h with h1 | h2
      · rcases h1 with ⟨st1, hst1, hc1, hv1⟩
        exact Or.inl ⟨st1, List.mem_cons_of_mem st hst1, hc1, hv1⟩
      · by_cases hc : pyContains d st = true
        · rw [if_pos hc] at h2
          exact Or.inl ⟨st, List.mem_cons_self st L, hc, (Option.some.injEq _ _ ▸ h2).symm⟩
        · rw [if_neg hc] at h2
          exact Or.inr h2

theorem eofFold_records (te : List Char → List Nat) (eos : List (List Char))
    (start : Nat) (dec : List (List Char)) (ids : List (List Nat)) :
    ∀ (L : List Nat) (el : List (Nat × Nat)) (i : Nat), i ∈ L →
      el.lookup i = none →
      eofFinished eos (dec.getD i []) = true →
      (L.foldl (eofFoldStep te eos start dec ids) el).lookup i ≠ none := by
  intro L
  induction L with
  | nil => intro el i h; cases h
  | cons j L ih =>
      intro el i hmem hnone hfin
      simp only [List.foldl_cons]
      by_cases hij : i = j
      · subst hij
        have hstep : ∃ w, (eofFoldStep te eos start dec ids el i).lookup i = some w := by
          unfold eofFoldStep
          rw [if_pos ⟨hfin, hnone⟩]
          cases hrv : eofRecordValue te eos (dec.getD i []) (ids.getD i []) start with
          | none => exact absurd hrv (eofRecordValue_isSome te eos _ _ start hfin)
          | some w => exact ⟨w, by simp [List.lookup]⟩
        rcases hstep with ⟨w, hw⟩
        rw [eofFold_preserve te eos start dec ids L _ i w hw]
        simp
      · have hmem' : i ∈ L := by
          rcases List.mem_cons.mp hmem with h | h
          · exact absurd h hij
          · exact h
        apply ih _ i hmem'
        · rw [eofFoldStep_lookup_ne te eos start dec ids el i j hij]; exact hnone
        · exact hfin

theorem pySliceNegLen_le (row : List Nat) (start L : Nat) :
    pySliceNegLen row start L ≤ row.length - start := by
  unfold pySliceNegLen
  by_cases h : L = 0
  · rw [if_pos h]; omega
  · rw [if_neg h]; omega

theorem pySliceNegLen_eq_of_ne (row : List Nat) (start L : Nat) (h : L ≠ 0) :
    pySliceNegLen row start L = (row.length - start) - L := by
  unfold pySliceNegLen
  rw [if_neg h]
  omega

/- ### Claim C5: the stop-condition evaluator -/

/-- C5: (a) across every sequence of `__call__` invocations, a sequence
index already holding a recorded completion length keeps that exact value
(recorded at most once); (b) a completion length newly recorded by a step
equals the generated length at that step minus the token length of a matched
stop marker — it excludes the matched marker's tokens — and never exceeds
the generated length at that step; (c) an unrecorded in-range sequence whose
decoded suffix contains a stop marker is recorded by that step.  Hypotheses:
the tokenizer encodes nonempty text to at least one token, and every stop
marker is nonempty. -/
theorem c5_eof_invariants (td : List Nat → List Char) (te : List Char → List Nat)
    (c : EndOfFunctionCriteria) (ids : List (List Nat)) (i : Nat)
    (hte : ∀ w : List Char, w ≠ [] → (te w).length ≠ 0)
    (hne : ∀ st ∈ c.eos, st ≠ []) :
    (∀ (batches : List (List (List Nat))) (v : Nat), c.end_length.lookup i = some v →
        (eofRun td te c batches).end_length.lookup i = some v) ∧
    (∀ v : Nat, c.end_length.lookup i = none →
        (eofStep td te c ids).1.end_length.lookup i = some v →
        v ≤ genLenAt c ids i ∧
        ∃ st ∈ c.eos, pyContains (decodedAt td c ids i) st = true ∧
          v = genLenAt c ids i - (te st).length) ∧
    (c.end_length.lookup i = none → i < ids.length →
        eofFinished c.eos (decodedAt td c ids i) = true →
        (eofStep td te c ids).1.end_length.lookup i ≠ none) := by
  refine ⟨?_, ?_, ?_⟩
  · clear hne hte
    intro batches
    induction batches generalizing c with
    | nil => intro v h; simpa [eofRun] using h
    | cons ids0 batches ih =>
        intro v h
        have hstep : (eofStep td te c ids0).1.end_length.lookup i = some v := by
          rw [eofStep_end_length]
          exact eofFold_preserve te c.eos c.start_length _ ids0 _ c.end_length i v h
        have hrun : eofRun td te c (ids0 :: batches) =
            eofRun td te (eofStep td te c ids0).1 batches := by
          simp [eofRun]
        rw [hrun]
        exact ih (eofStep td te c ids0).1 v hstep
  · intro v hnone hsome
    rw [eofStep_end_length] at hsome
    by_cases hlt : i < ids.length
    · have hdec : (ids.map fun row => td (row.drop c.start_length)).getD i [] =
          decodedAt td c ids i := by
        rw [getD_map_lt _ ids i hlt]; rfl
      rcases eofFold_origin te c.eos c.start_length _ ids _ c.end_length i v hsome with
        h1 | h2
      · rw [hnone] at h1; cases h1
      · rcases eofRecordValue_elim te _ _ c.start_length c.eos none v h2 with h3 | h3
        · rcases h3 with ⟨st, hst, hc, hv⟩
          rw [hdec] at hc
          have hL : (te st).length ≠ 0 := hte st (hne st hst)
          refine ⟨?_, ⟨st, hst, hc, ?_⟩⟩
          · rw [hv]
            exact pySliceNegLen_le _ _ _
          · rw [hv, pySliceNegLen_eq_of_ne _ _ _ hL]
            rfl
        · cases h3
    · have : i ∉ List.range ids.length := by
        simp [List.mem_range]; omega
      rw [eofFold_untouched te c.eos c.start_length _ ids _ c.end_length i this] at hsome
      rw [hnone] at hsome
      cases hsome
  · intro hnone hlt hfin
    rw [eofStep_end_length]
    have hdec : (ids.map fun row => td (row.drop c.start_length)).getD i [] =
        decodedAt td c ids i := by
      rw [getD_map_lt _ ids i hlt]; rfl
    apply eofFold_records te c.eos c.start_length _ ids _ c.end_length i
    · exact List.mem_range.mpr hlt
    · exact hnone
    · rw [hdec]; exact hfin

/-- Concrete tokenizer decode for the C5 witness: token `n` is the character
with code `n`. -/
def tdEx : List Nat → List Char := fun l => l.map Char.ofNat

/-- Concrete tokenizer encode for the C5 witness. -/
def teEx : List Char → List Nat := fun l => l.map Char.toNat

/-- A fresh criteria instance over the marker `</s>` with offset 1. -/
def c5cEx : EndOfFunctionCriteria :=
  { start_length := 1, eos := [chars "</s>"], end_length := [] }

/-- One batch: a single sequence `"h</s>"` as character codes. -/
def c5idsEx : List (List Nat) := [[104, 60, 47, 115, 62]]

/-- C5 witness: on the concrete batch, the first step records sequence 0. -/
theorem c5_eof_invariants_witness :
    (eofStep tdEx teEx c5cEx c5idsEx).1.end_length.lookup 0 ≠ none :=
  (c5_eof_invariants tdEx teEx c5cEx c5idsEx 0
      (fun w hw => by simp [teEx, List.length_eq_zero]; exact hw)
      (by decide)).2.2
    rfl (by decide) (by decide)

/- ### Decoder configuration and the embedded codegen bodies -/

/-- The decoder configuration fields read by the `codegen` bodies
(set in `DecoderBase.__init__`, model.py lines 89-112).  `eos` holds the
contents of the decoder's stop-marker list at call time. -/
structure DecoderConfig where
  name : List Char
  batch_size : Nat
  temperature : ℚ
  max_new_tokens : Nat
  eos : List (List Char)
deriving DecidableEq

/-- The `max_new_tokens` selection of `DecoderBase.__init__` (model.py lines
107-109): the conversational budget when `conversational` is set, else the
completion budget. -/
def decoderBaseMaxNew (conversational : Bool)
    (max_new_tokens max_conversational_new_tokens : Nat) : Nat :=
  if conversational then max_conversational_new_tokens else max_new_tokens

/-- The only exception the embedded codegen bodies can raise
(a failed `assert`). -/
inductive PyExn
  | assertionError
deriving DecidableEq

deriving instance DecidableEq for Except

/-- Request parameters of `self.llm.generate` in `VLlmDecoder.codegen`
(model.py lines 146-155). -/
structure VllmRequest where
  numPrompts : Nat
  temperature : ℚ
  maxTokens : Nat
  topP : ℚ
  stop : List (List Char)
deriving DecidableEq

structure VllmResult where
  request : VllmRequest
  outputs : List (List Char)
  post : DecoderConfig
deriving DecidableEq

/-- `VLlmDecoder.codegen` (model.py lines 139-158): assert a positive
temperature only when sampling; replicate the prompt
`min(batch_size, num_samples)` times; return one completion per prompt with
tabs replaced by four spaces.  `backend i` is the raw text of the `i`-th
completion produced by the engine. -/
def vllmCodegen (cfg : DecoderConfig) (do_sample : Bool) (num_samples : Nat)
    (backend : Nat → List Char) : Except PyExn VllmResult :=
  if do_sample = true ∧ ¬ (0 < cfg.temperature) then Except.error PyExn.assertionError
  else
    let n := min cfg.batch_size num_samples
    let req : VllmRequest :=
      { numPrompts := n, temperature := cfg.temperature, maxTokens := cfg.max_new_tokens,
        topP := if do_sample = true then 19/20 else 1, stop := cfg.eos }
    Except.ok
      { request := req,
        outputs := (List.range n).map fun i => pyReplaceChar '\t' (chars "    ") (backend i),
        post := cfg }

/-- Request parameters of `self.model.generate` in `HFTorchDecoder.codegen`
(model.py lines 399-409). -/
structure HFRequest where
  numReturnSequences : Nat
  maxNewTokens : Nat
  doSample : Bool
  temperature : Option ℚ
  topP : Option ℚ
deriving DecidableEq

structure HFResult where
  request : HFRequest
  outputs : List (List Char)
  post : DecoderConfig
deriving DecidableEq

/-- `HFTorchDecoder.codegen` (model.py lines 374-423): when the configured
temperature is 0 it asserts `not do_sample` and `num_samples == 1`; the
`top_p`/`temperature` kwargs are passed only when sampling; the model
returns `min(batch_size, num_samples)` sequences whose decoded texts
(`backend i`) then pass through the eos-trimming loop (lines 414-423,
embedded as `trimOutput`). -/
def hfTorchCodegen (cfg : DecoderConfig) (do_sample : Bool) (num_samples : Nat)
    (backend : Nat → List Char) : Except PyExn HFResult :=
  if cfg.temperature = 0 ∧ (do_sample = true ∨ num_samples ≠ 1) then
    Except.error PyExn.assertionError
  else
    let n := min cfg.batch_size num_samples
    let req : HFRequest :=
      { numReturnSequences := n, maxNewTokens := cfg.max_new_tokens, doSample := do_sample,
        temperature := if do_sample = true then some cfg.temperature else none,
        topP := if do_sample = true then some (19/20) else none }
    Except.ok
      { request := req,
        outputs := (List.range n).map fun i => trimOutput cfg.eos (backend i),
        post := cfg }

structure MistralResult where
  requests : Nat
  reqTemperature : Option ℚ
  reqTopP : Option ℚ
  maxTokens : Nat
  outputs : List (List Char)
  post : DecoderConfig
deriving DecidableEq

/-- `MistralChatDecoder.codegen` (model.py lines 524-554): when sampling it
asserts a positive temperature and passes `top_p`/`temperature`; when not
sampling it silently assigns `self.temperature = 0` (line 533) and passes
neither; it then issues `min(batch_size, num_samples)` chat requests and
appends each response's content unmodified. -/
def mistralCodegen (cfg : DecoderConfig) (do_sample : Bool) (num_samples : Nat)
    (backend : Nat → List Char) : Except PyExn MistralResult :=
  if do_sample = true then
    if ¬ (0 < cfg.temperature) then Except.error PyExn.assertionError
    else
      let n := min cfg.batch_size num_samples
      Except.ok
        { requests := n, reqTemperature := some cfg.temperature, reqTopP := some (19/20),
          maxTokens := cfg.max_new_tokens, outputs := (List.range n).map backend, post := cfg }
  else
    let cfg2 : DecoderConfig := { cfg with temperature := 0 }
    let n := min cfg2.batch_size num_samples
    Except.ok
      { requests := n, reqTemperature := none, reqTopP := none,
        maxTokens := cfg2.max_new_tokens, outputs := (List.range n).map backend, post := cfg2 }

structure AnthropicResult where
  requests : Nat
  reqTemperature : ℚ
  maxTokens : Nat
  stopSequences : List (List Char)
  outputs : List (List Char)
  post : DecoderConfig
deriving DecidableEq

/-- `AnthropicMessageDecoder.codegen` (model.py lines 563-592): asserts a
positive temperature when sampling, asserts an effective batch size of 1
when not sampling, then issues `min(batch_size, num_samples)` message
requests with the configured temperature and the fixed stop sequences,
appending each response text unmodified. -/
def anthropicCodegen (cfg : DecoderConfig) (do_sample : Bool) (num_samples : Nat)
    (backend : Nat → List Char) : Except PyExn AnthropicResult :=
  if do_sample = true ∧ ¬ (0 < cfg.temperature) then Except.error PyExn.assertionError
  else if do_sample = false ∧ min cfg.batch_size num_samples ≠ 1 then
    Except.error PyExn.assertionError
  else
    Except.ok
      { requests := min cfg.batch_size num_samples, reqTemperature := cfg.temperature,
        maxTokens := cfg.max_new_tokens,
        stopSequences := [chars "\n```\n", chars "\nif "],
        outputs := (List.range (min cfg.batch_size num_samples)).map backend, post := cfg }

structure OpenAIResult where
  n : Nat
  maxTokens : Nat
  reqTemperature : ℚ
  outputs : List (List Char)
  post : DecoderConfig
deriving DecidableEq

/-- `OpenAIChatDecoder.codegen` (model.py lines 474-516): asserts a positive
temperature when sampling; requests `n = min(batch_size, num_samples)`
choices in one call; in `json_object` mode (used only for the name
`gpt-4-1106-preview`) a parsed `code` field is wrapped with the prompt,
otherwise each choice's content is appended unmodified.  `jsonCode` models
the `code` field extracted by `json.loads` (with `none` for a parse failure
or a missing field). -/
def openaiCodegen (cfg : DecoderConfig) (do_sample : Bool) (num_samples : Nat)
    (prompt : List Char) (contents : Nat → List Char)
    (jsonCode : List Char → Option (List Char)) : Except PyExn OpenAIResult :=
  if do_sample = true ∧ ¬ (0 < cfg.temperature) then Except.error PyExn.assertionError
  else
    let n := min cfg.batch_size num_samples
    Except.ok
      { n := n, maxTokens := cfg.max_new_tokens, reqTemperature := cfg.temperature,
        outputs := (List.range n).map fun i =>
          if cfg.name = chars "gpt-4-1106-preview" then
            match jsonCode (contents i) with
            | some code => prompt ++ chars "\n" ++ code
            | none => contents i
          else contents i,
        post := cfg }

/- ### Claim C3: effective batch size -/

/-- C3: for every embedded decoder variant, a successful `codegen` call
issues `min(configured batch size, num_samples)` generation requests and
returns exactly that many completions. -/
theorem c3_effective_batch (cfg : DecoderConfig) (ds : Bool) (ns : Nat)
    (b : Nat → List Char) (prompt : List Char) (jsonCode : List Char → Option (List Char)) :
    (∀ r, vllmCodegen cfg ds ns b = Except.ok r →
        r.request.numPrompts = min cfg.batch_size ns ∧
        r.outputs.length = min cfg.batch_size ns) ∧
    (∀ r, hfTorchCodegen cfg ds ns b = Except.ok r →
        r.request.numReturnSequences = min cfg.batch_size ns ∧
        r.outputs.length = min cfg.batch_size ns) ∧
    (∀ r, mistralCodegen cfg ds ns b = Except.ok r →
        r.requests = min cfg.batch_size ns ∧
        r.outputs.length = min cfg.batch_size ns) ∧
    (∀ r, anthropicCodegen cfg ds ns b = Except.ok r →
        r.requests = min cfg.batch_size ns ∧
        r.outputs.length = min cfg.batch_size ns) ∧
    (∀ r, openaiCodegen cfg ds ns prompt b jsonCode = Except.ok r →
        r.n = min cfg.batch_size ns ∧
        r.outputs.length = min cfg.batch_size ns) := by
  refine ⟨?_, ?_, ?_, ?_, ?_⟩
  · intro r h
    unfold vllmCodegen at h
    split at h
    · cases h
    · injection h with h; subst h; exact ⟨rfl, by simp⟩
  · intro r h
    unfold hfTorchCodegen at h
    split at h
    · cases h
    · injection h with h; subst h; exact ⟨rfl, by simp⟩
  · intro r h
    unfold mistralCodegen at h
    split at h
    · split at h
      · cases h
      · injection h with h; subst h; exact ⟨rfl, by simp⟩
    · injection h with h; subst h; exact ⟨rfl, by simp⟩
  · intro r h
    unfold anthropicCodegen at h
    split at h
    · cases h
    · split at h
      · cases h
      · injection h with h; subst h; exact ⟨rfl, by simp⟩
  · intro r h
    unfold openaiCodegen at h
    split at h
    · cases h
    · injection h with h; subst h; exact ⟨rfl, by simp⟩

/-- A concrete configuration with batch size 4 and a nonzero temperature. -/
def cfgBatch4 : DecoderConfig :=
  { name := chars "bigcode/starcoder2-15b", batch_size := 4, temperature := 1,
    max_new_tokens := 512, eos := EOS }

/-- The vLLM call result for the C3 scenario. -/
def vllmRes4 : VllmResult :=
  { request := { numPrompts := 4, temperature := 1, maxTokens := 512, topP := 19/20,
                 stop := EOS },
    outputs := [chars "x", chars "x", chars "x", chars "x"], post := cfgBatch4 }

/-- C3 witness: with `num_samples = 200` and configured batch 4, one vLLM
codegen call returns exactly 4 completions. -/
theorem c3_effective_batch_witness :
    vllmCodegen cfgBatch4 true 200 (fun _ => chars "x") = Except.ok vllmRes4 ∧
    vllmRes4.outputs.length = min cfgBatch4.batch_size 200 ∧
    min cfgBatch4.batch_size 200 = 4 :=
  ⟨by rfl,
   ((c3_effective_batch cfgBatch4 true 200 (fun _ => chars "x") []
      (fun _ => none)).1 vllmRes4 (by rfl)).2,
   by decide⟩

/- ### Claim C2: the sample=false contract -/

/-- The vLLM call result for the C2 counterexample. -/
def vllmResC2 : VllmResult :=
  { request := { numPrompts := 4, temperature := 1, maxTokens := 512, topP := 1,
                 stop := EOS },
    outputs := [[], [], [], []], post := cfgBatch4 }

/-- C2 counterexample: on the vLLM variant, `do_sample = false` with
`num_samples = 4` and a configured nonzero temperature neither raises an
assertion nor requests a single output at temperature 0: four outputs are
requested at the configured temperature. -/
theorem c2_counterexample :
    vllmCodegen cfgBatch4 false 4 (fun _ => []) = Except.ok vllmResC2 ∧
    vllmResC2.request.numPrompts = 4 ∧ vllmResC2.request.temperature = 1 ∧
    vllmResC2.request.temperature ≠ 0 :=
  ⟨by rfl, rfl, rfl, by decide⟩

/-- C2 (amended): the actual `do_sample = false` behavior per variant: the
vLLM variant performs no validation at all and requests
`min(batch, num_samples)` outputs at the configured temperature; the
HF-torch variant asserts `not do_sample and num_samples == 1` only when the
configured temperature is 0, and otherwise proceeds greedily with
`min(batch, num_samples)` outputs and no temperature argument; the Anthropic
variant alone asserts an effective batch size of 1 (at the configured, not
zero, temperature); the Mistral variant silently sets its temperature field
to 0 instead of raising, and sends no temperature argument. -/
theorem c2_amended_sampling_contract (cfg : DecoderConfig) (ns : Nat) (b : Nat → List Char) :
    (∀ r, vllmCodegen cfg false ns b = Except.ok r →
        r.request.numPrompts = min cfg.batch_size ns ∧
        r.request.temperature = cfg.temperature) ∧
    (vllmCodegen cfg false ns b ≠ Except.error PyExn.assertionError) ∧
    (cfg.temperature = 0 → ∀ ds : Bool, (ds = true ∨ ns ≠ 1) →
        hfTorchCodegen cfg ds ns b = Except.error PyExn.assertionError) ∧
    (cfg.temperature ≠ 0 → ∀ r, hfTorchCodegen cfg false ns b = Except.ok r →
        r.request.numReturnSequences = min cfg.batch_size ns ∧
        r.request.temperature = none) ∧
    (min cfg.batch_size ns ≠ 1 →
        anthropicCodegen cfg false ns b = Except.error PyExn.assertionError) ∧
    (∀ r, anthropicCodegen cfg false ns b = Except.ok r →
        r.requests = 1 ∧ r.reqTemperature = cfg.temperature) ∧
    (∀ r, mistralCodegen cfg false ns b = Except.ok r →
        r.post.temperature = 0 ∧ r.reqTemperature = none) := by
  refine ⟨?_, ?_, ?_, ?_, ?_, ?_, ?_⟩
  · intro r h
    unfold vllmCodegen at h
    rw [if_neg (by simp)] at h
    injection h with h; subst h; exact ⟨rfl, rfl⟩
  · unfold vllmCodegen
    rw [if_neg (by simp)]
    simp
  · intro h0 ds hds
    unfold hfTorchCodegen
    rw [if_pos ⟨h0, hds⟩]
  · intro h0 r h
    unfold hfTorchCodegen at h
    rw [if_neg (by intro hc; exact h0 hc.1)] at h
    injection h with h; subst h
    constructor
    · rfl
    · simp
  · intro hn
    unfold anthropicCodegen
    rw [if_neg (by simp)]
    rw [if_pos ⟨rfl, hn⟩]
  · intro r h
    unfold anthropicCodegen at h
    rw [if_neg (by simp)] at h
    split at h
    · cases h
    · rename_i hcond
      have h1 : min cfg.batch_size ns = 1 := by
        by_cases hmin : min cfg.batch_size ns = 1
        · exact hmin
        · exact absurd ⟨rfl, hmin⟩ hcond
      injection h with h; subst h
      exact ⟨h1, rfl⟩
  · intro r h
    unfold mistralCodegen at h
    rw [if_neg (by simp)] at h
    injection h with h; subst h
    exact ⟨rfl, rfl⟩

/-- A configuration with temperature 0 for the C2 amended witness. -/
def cfgTempZero : DecoderConfig :=
  { name := chars "Salesforce/codegen-2B-mono", batch_size := 2, temperature := 0,
    max_new_tokens := 512, eos := EOS }

/-- C2 amended witness: the HF-torch variant at temperature 0 rejects
sampling, and the Anthropic variant rejects a non-sampling call whose
effective batch size is not 1. -/
theorem c2_amended_sampling_contract_witness :
    hfTorchCodegen cfgTempZero true 5 (fun _ => []) = Except.error PyExn.assertionError ∧
    anthropicCodegen cfgBatch4 false 4 (fun _ => []) = Except.error PyExn.assertionError :=
  ⟨(c2_amended_sampling_contract cfgTempZero 5 (fun _ => [])).2.2.1 rfl true (Or.inl rfl),
   (c2_amended_sampling_contract cfgBatch4 4 (fun _ => [])).2.2.2.2.1 (by decide)⟩

/- ### Claim C6: trimming after decode, per backend -/

/-- C6 (amended): only the HF-torch local family applies the eos-trimming
loop to its decoded completions; the vLLM variant delegates stop handling
to the engine by passing the stop-marker list in its request and applies no
local trimming; the remote chat variants (OpenAI in text mode, Mistral,
Anthropic) return the response contents without any local trimming. -/
theorem c6_amended_trimming (cfg : DecoderConfig) (ds : Bool) (ns : Nat) (t : List Char)
    (prompt : List Char) (jsonCode : List Char → Option (List Char)) :
    (∀ r, hfTorchCodegen cfg ds ns (fun _ => t) = Except.ok r →
        ∀ o ∈ r.outputs, o = trimOutput cfg.eos t) ∧
    (∀ r, vllmCodegen cfg ds ns (fun _ => t) = Except.ok r → r.request.stop = cfg.eos) ∧
    (∀ r, mistralCodegen cfg ds ns (fun _ => t) = Except.ok r → ∀ o ∈ r.outputs, o = t) ∧
    (∀ r, anthropicCodegen cfg ds ns (fun _ => t) = Except.ok r → ∀ o ∈ r.outputs, o = t) ∧
    (cfg.name ≠ chars "gpt-4-1106-preview" →
        ∀ r, openaiCodegen cfg ds ns prompt (fun _ => t) jsonCode = Except.ok r →
          ∀ o ∈ r.outputs, o = t) := by
  refine ⟨?_, ?_, ?_, ?_, ?_⟩
  · intro r h o ho
    unfold hfTorchCodegen at h
    split at h
    · cases h
    · injection h with h; subst h
      rcases List.mem_map.mp ho with ⟨i, hi, rfl⟩
      rfl
  · intro r h
    unfold vllmCodegen at h
    split at h
    · cases h
    · injection h with h; subst h; rfl
  · intro r h o ho
    unfold mistralCodegen at h
    split at h
    · split at h
      · cases h
      · injection h with h; subst h
        rcases List.mem_map.mp ho with ⟨i, hi, rfl⟩
        rfl
    · injection h with h; subst h
      rcases List.mem_map.mp ho with ⟨i, hi, rfl⟩
      rfl
  · intro r h o ho
    unfold anthropicCodegen at h
    split at h
    · cases h
    · split at h
      · cases h
      · injection h with h; subst h
        rcases List.mem_map.mp ho with ⟨i, hi, rfl⟩
        rfl
  · intro hname r h o ho
    unfold openaiCodegen at h
    by_cases hc : (ds = true ∧ ¬ 0 < cfg.temperature)
    · rw [if_pos hc] at h; cases h
    · rw [if_neg hc] at h
      injection h with h; subst h
      rcases List.mem_map.mp ho with ⟨i, hi, rfl⟩
      rw [if_neg hname]

/-- A raw remote completion still containing a stop marker. -/
def rawC6 : List Char := chars "x\n<|endoftext|>tail"

/-- The configuration resolved for `mistral-large-latest`. -/
def cfgMistral : DecoderConfig :=
  { name := chars "mistral-large-latest", batch_size := 1, temperature := 1,
    max_new_tokens := 1024, eos := EOS }

/-- C6 counterexample: the Mistral chat variant returns a completion that
still contains the stop marker `<|endoftext|>`; the trimming step would have
truncated it, so the raw decode is not passed through the trimmer. -/
theorem c6_counterexample :
    mistralCodegen cfgMistral true 1 (fun _ => rawC6) =
      Except.ok
        { requests := 1, reqTemperature := some 1, reqTopP := some (19/20),
          maxTokens := 1024, outputs := [rawC6], post := cfgMistral } ∧
    pyContains rawC6 (chars "<|endoftext|>") = true ∧
    trimOutput EOS rawC6 ≠ rawC6 :=
  ⟨by rfl, by decide, by decide⟩

/-- The HF-torch call result used by the C6 amended witness. -/
def rHF6 : HFResult :=
  { request := { numReturnSequences := 2, maxNewTokens := 512, doSample := true,
                 temperature := some 1, topP := some (19/20) },
    outputs := [chars "x\n", chars "x\n"], post := cfgBatch4 }

/-- C6 amended witness: a concrete HF-torch call whose outputs are the
trimmed backend text. -/
theorem c6_amended_trimming_witness :
    chars "x\n" = trimOutput cfgBatch4.eos rawC6 ∧
    trimOutput cfgBatch4.eos rawC6 = chars "x\n" :=
  ⟨(c6_amended_trimming cfgBatch4 true 2 rawC6 [] (fun _ => none)).1 rHF6 (by rfl)
      (chars "x\n") (by decide),
   by decide⟩

/- ### Claim C9: configuration immutability -/

/-- C9 (amended): no embedded codegen body modifies the decoder
configuration, with one exception: `MistralChatDecoder.codegen` with
`do_sample = false` assigns temperature 0 to the configuration
(`self.temperature = 0`, model.py line 533). -/
theorem c9_amended_config_mutation (cfg : DecoderConfig) (ds : Bool) (ns : Nat)
    (b : Nat → List Char) (prompt : List Char) (jsonCode : List Char → Option (List Char)) :
    (∀ r, vllmCodegen cfg ds ns b = Except.ok r → r.post = cfg) ∧
    (∀ r, hfTorchCodegen cfg ds ns b = Except.ok r → r.post = cfg) ∧
    (∀ r, anthropicCodegen cfg ds ns b = Except.ok r → r.post = cfg) ∧
    (∀ r, openaiCodegen cfg ds ns prompt b jsonCode = Except.ok r → r.post = cfg) ∧
    (∀ r, mistralCodegen cfg true ns b = Except.ok r → r.post = cfg) ∧
    (∀ r, mistralCodegen cfg false ns b = Except.ok r →
        r.post = { cfg with temperature := 0 }) := by
  refine ⟨?_, ?_, ?_, ?_, ?_, ?_⟩
  · intro r h
    unfold vllmCodegen at h
    split at h
    · cases h
    · injection h with h; subst h; rfl
  · intro r h
    unfold hfTorchCodegen at h
    split at h
    · cases h
    · injection h with h; subst h; rfl
  · intro r h
    unfold anthropicCodegen at h
    split at h
    · cases h
    · split at h
      · cases h
      · injection h with h; subst h; rfl
  · intro r h
    unfold openaiCodegen at h
    split at h
    · cases h
    · injection h with h; subst h; rfl
  · intro r h
    unfold mistralCodegen at h
    rw [if_pos rfl] at h
    split at h
    · cases h
    · injection h with h; subst h; rfl
  · intro r h
    unfold mistralCodegen at h
    rw [if_neg (by simp)] at h
    injection h with h; subst h; rfl

/-- C9 counterexample: a Mistral codegen call with `do_sample = false`
mutates the configured temperature from 1 to 0. -/
theorem c9_counterexample :
    mistralCodegen cfgMistral false 1 (fun _ => []) =
      Except.ok
        { requests := 1, reqTemperature := none, reqTopP := none, maxTokens := 1024,
          outputs := [[]], post := { cfgMistral with temperature := 0 } } ∧
    cfgMistral.temperature = 1 ∧ (0 : ℚ) ≠ 1 :=
  ⟨by rfl, by rfl, by decide⟩

/-- The Mistral call result used by the C9 amended witness. -/
def rM9 : MistralResult :=
  { requests := 1, reqTemperature := none, reqTopP := none, maxTokens := 1024,
    outputs := [[]], post := { cfgMistral with temperature := 0 } }

/-- C9 amended witness: the post-call configuration of a concrete
non-sampling Mistral call is the configuration with temperature 0. -/
theorem c9_amended_config_mutation_witness :
    rM9.post = { cfgMistral with temperature := 0 } :=
  (c9_amended_config_mutation cfgMistral false 1 (fun _ => []) []
    (fun _ => none)).2.2.2.2.2 rM9 (by rfl)

/- ### CodeT5P retry/degrade loop (model.py lines 925-953) -/

/-- Outcome of one `self.model.generate` attempt inside `CodeT5P.codegen`,
as seen by the `try`/`except RuntimeError` handler: success, a CUDA
out-of-memory `RuntimeError`, or any other `RuntimeError`. -/
inductive GenResult
  | genSuccess
  | genOOM
  | genOtherError
deriving DecidableEq

/-- Result of the `while max_new_tokens > 0` loop. -/
inductive LoopOutcome
  | succeeded (budget : Nat)
  | raisedOther (budget : Nat)
  | exhausted
deriving DecidableEq

/-- The budget shrink `max_new_tokens = int(max_new_tokens * 0.8)`
(model.py line 945), i.e. the floor of 0.8 times the budget. -/
def oomShrink (n : Nat) : Nat := n * 4 / 5

/-- The `while max_new_tokens > 0` retry loop of `CodeT5P.codegen`
(model.py lines 925-953): attempt generation at the current budget; on a
CUDA OOM shrink the budget and `continue`; on any other `RuntimeError`
re-raise; on success `break`.  When the budget reaches 0 the loop exits
without a result.  `attempt n` is the outcome of one generation attempt at
budget `n`. -/
def codet5pRetry (attempt : Nat → GenResult) (n : Nat) : LoopOutcome :=
  if _h : n = 0 then LoopOutcome.exhausted
  else
    match attempt n with
    | GenResult.genSuccess => LoopOutcome.succeeded n
    | GenResult.genOtherError => LoopOutcome.raisedOther n
    | GenResult.genOOM => codet5pRetry attempt (oomShrink n)
termination_by n
decreasing_by
  simp only [oomShrink]
  omega

/- ### Claim C4: the retry policy -/

/-- C4: each OOM retry strictly shrinks a positive budget
(`floor(0.8 n) < n` for `n ≥ 1`); a non-OOM runtime failure at a positive
budget is re-raised immediately, with the budget unchanged; a success at a
positive budget returns immediately; under perpetual OOM the loop exhausts
the budget to 0 in finitely many steps; and every run ends in a success at a
positive budget, a re-raised failure at a positive budget, or budget
exhaustion. -/
theorem c4_retry_policy :
    (∀ n : Nat, 1 ≤ n → oomShrink n < n) ∧
    (∀ (attempt : Nat → GenResult) (n : Nat), 1 ≤ n →
        attempt n = GenResult.genOtherError →
        codet5pRetry attempt n = LoopOutcome.raisedOther n) ∧
    (∀ (attempt : Nat → GenResult) (n : Nat), 1 ≤ n →
        attempt n = GenResult.genSuccess →
        codet5pRetry attempt n = LoopOutcome.succeeded n) ∧
    (∀ n : Nat, codet5pRetry (fun _ => GenResult.genOOM) n = LoopOutcome.exhausted) ∧
    (∀ (attempt : Nat → GenResult) (n : Nat),
        (∃ b, 1 ≤ b ∧ codet5pRetry attempt n = LoopOutcome.succeeded b) ∨
        (∃ b, 1 ≤ b ∧ codet5pRetry attempt n = LoopOutcome.raisedOther b) ∨
        codet5pRetry attempt n = LoopOutcome.exhausted) := by
  have hshrink : ∀ n : Nat, 1 ≤ n → oomShrink n < n := by
    intro n hn
    simp only [oomShrink]
    omega
  refine ⟨hshrink, ?_, ?_, ?_, ?_⟩
  · intro attempt n hn ha
    rw [codet5pRetry]
    rw [dif_neg (by omega)]
    rw [ha]
  · intro attempt n hn ha
    rw [codet5pRetry]
    rw [dif_neg (by omega)]
    rw [ha]
  · intro n
    induction n using Nat.strong_induction_on with
    | _ n ih =>
        rw [codet5pRetry]
        by_cases h0 : n = 0
        · rw [dif_pos h0]
        · rw [dif_neg h0]
          exact ih (oomShrink n) (hshrink n (by omega))
  · intro attempt n
    induction n using Nat.strong_induction_on with
    | _ n ih =>
        rw [codet5pRetry]
        by_cases h0 : n = 0
        · rw [dif_pos h0]
          exact Or.inr (Or.inr rfl)
        · rw [dif_neg h0]
          cases ha : attempt n with
          | genSuccess => exact Or.inl ⟨n, by omega, rfl⟩
          | genOtherError => exact Or.inr (Or.inl ⟨n, by omega, rfl⟩)
          | genOOM => exact ih (oomShrink n) (hshrink n (by omega))

/-- C4 witness: concrete instantiations of the retry policy — the shrink is
strict at budget 5; a non-OOM failure at budget 512 is surfaced immediately;
perpetual OOM starting from 512 exhausts the budget. -/
theorem c4_retry_policy_witness :
    oomShrink 5 < 5 ∧
    codet5pRetry (fun _ => GenResult.genOtherError) 512 = LoopOutcome.raisedOther 512 ∧
    codet5pRetry (fun _ => GenResult.genOOM) 512 = LoopOutcome.exhausted :=
  ⟨c4_retry_policy.1 5 (by decide),
   c4_retry_policy.2.1 (fun _ => GenResult.genOtherError) 512 (by decide) rfl,
   c4_retry_policy.2.2.2.1 512⟩

/- ### Backend Selector: make_model (model.py lines 1053-1497) -/

/-- The decoder class chosen by a `make_model` branch. -/
inductive Family
  | hfTorch
  | codegen2
  | santaCoder
  | incoder
  | openAIChat
  | anthropicMessage
  | vllm
  | codeT5P
  | codeLlamaInstruct70B
  | codeLlamaInstructSmall
  | deepSeekInstruct
  | magicoder
  | alpaca
  | chatML
  | solar
  | openChat
  | speechless
  | code
  | xwinCoder
  | zyte
  | whiteRabbitNeo
  | openCodeInterpreter
  | codeGemma
  | mistralChat
deriving DecidableEq

/-- A resolved decoder: its class, the checkpoint name passed as `name=`,
the effective `conversational` flag (whether set by `make_model` or by the
subclass `__init__`), the `max_new_tokens` budget computed by
`DecoderBase.__init__`, and the numeric size parameter parsed from
pattern-based identifiers. -/
structure Resolved where
  family : Family
  hfName : List Char
  conversational : Bool
  max_new_tokens : Nat
  sizeParam : Option ℚ
deriving DecidableEq

/-- Outcome of `make_model`: a constructed decoder, or one of the uncaught
Python exceptions its branches can raise: `ValueError` for the final
fallthrough (model.py line 1497), `IndexError` for `matches[0]` on an empty
`findall` (lines 1163, 1231), `AssertionError` for the `code-llama` suffix
asserts (lines 1194, 1209), and `UnboundLocalError` for the `codegemma`
branch (line 1466), which reads the function-local name `re` that is only
assigned inside the `starcoder` and `deepseek-coder` branches. -/
inductive MakeModelResult
  | resolved (r : Resolved)
  | invalidArgument (msg : List Char)
  | indexError
  | assertionError
  | unboundLocalError
deriving DecidableEq

/-- Whether the outcome is the ValueError (InvalidArgument) failure. -/
def MakeModelResult.isInvalid : MakeModelResult → Bool
  | MakeModelResult.invalidArgument _ => true
  | _ => false

/-- A resolved decoder with budgets computed as in `DecoderBase.__init__`
(`max_conversational_new_tokens = 1024`); `maxNew` is the `max_new_tokens`
keyword (512 unless a branch overrides it). -/
def resolve (fam : Family) (hfName : List Char) (conversational : Bool)
    (maxNew : Nat) (size : Option ℚ) : MakeModelResult :=
  MakeModelResult.resolved
    { family := fam, hfName := hfName, conversational := conversational,
      max_new_tokens := decoderBaseMaxNew conversational maxNew 1024, sizeParam := size }

/-- Maximal leading run of decimal digits and the remainder. -/
def digitRun : List Char → List Char × List Char
  | [] => ([], [])
  | a :: t =>
      if a.isDigit then
        let r := digitRun t
        (a :: r.1, r.2)
      else ([], a :: t)

/-- Numeric value of a decimal digit string. -/
def digitsToNat (ds : List Char) : Nat :=
  ds.foldl (fun n c => n * 10 + (c.toNat - 48)) 0

/-- Decimal digit string of a natural number. -/
def natToDigits (n : Nat) : List Char := Nat.toDigits 10 n

/-- One attempt of the regex `starcoder2-(\d+)b` at the head of `l`: the
literal prefix, a nonempty maximal digit run, then `b`.  (Backtracking over
the greedy `\d+` cannot produce any other match at this position, since a
shorter run leaves a digit where `b` is required.) -/
def matchStarcoder2 (l : List Char) : Option Nat :=
  if (chars "starcoder2-").isPrefixOf l then
    let rest := l.drop 11
    let p := digitRun rest
    if p.1 ≠ [] ∧ p.2.head? = some 'b' then some (digitsToNat p.1) else none
  else none

/-- `re.findall(r"starcoder2-(\d+)b", name)[0]` (model.py lines 1161-1163):
the capture of the first match, scanning positions left to right (`none`
models the IndexError of `matches[0]` on no match). -/
def findStarcoder2 : List Char → Option Nat
  | [] => none
  | a :: t =>
      match matchStarcoder2 (a :: t) with
      | some v => some v
      | none => findStarcoder2 t

/-- One attempt of `deepseek-coder-(\d+\.?\d*)b(.*)` at the head of `l`:
the literal prefix, a nonempty digit run, optionally a dot and a further
digit run, then `b`; the second capture is the remainder.  (Backtracking
over the greedy pieces cannot produce any other match at this position:
shorter digit runs leave a digit where `.` or `b` is required, and when the
dot path fails the dotless path meets the `.` where `b` is required.)  The
numeric capture `float(...)` is returned as an exact rational. -/
def matchDeepseek (l : List Char) : Option (ℚ × List Char) :=
  if (chars "deepseek-coder-").isPrefixOf l then
    let rest := l.drop 15
    let p := digitRun rest
    if p.1 = [] then none
    else
      match p.2 with
      | '.' :: r2 =>
          let q := digitRun r2
          (match q.2 with
           | 'b' :: r4 =>
               some (Rat.divInt
                 (digitsToNat p.1 * 10 ^ q.1.length + digitsToNat q.1)
                 (10 ^ q.1.length), r4)
           | _ => none)
      | 'b' :: r4 => some (Rat.divInt (digitsToNat p.1) 1, r4)
      | _ => none
  else none

/-- `re.findall(r"deepseek-coder-(\d+\.?\d*)b(.*)", name)[0]`
(model.py lines 1230-1231). -/
def findDeepseek : List Char → Option (ℚ × List Char)
  | [] => none
  | a :: t =>
      match matchDeepseek (a :: t) with
      | some v => some v
      | none => findDeepseek t

/-- Least `k` with `d` dividing `10^k`, for denominators of parsed decimal
literals (which always divide a power of ten). -/
def decExp (d : Nat) : Nat :=
  ((List.range 40).find? fun k => 10 ^ k % d == 0).getD 0

/-- Left-pad a digit string with zeroes to length `k`. -/
def padZeroes (k : Nat) (ds : List Char) : List Char :=
  List.replicate (k - ds.length) '0' ++ ds

/-- Python's `f"{nb}"` for the parsed size: an integer-valued float is first
converted with `int(nb)` (model.py lines 1233-1234) and prints without a
decimal point; otherwise `str(float)` prints the shortest decimal form,
which for a parsed decimal literal is its reduced decimal expansion. -/
def ratDecimalStr (q : ℚ) : List Char :=
  if q.den = 1 then natToDigits q.num.toNat
  else
    let k := decExp q.den
    let scaled := q.num.toNat * 10 ^ k / q.den
    natToDigits (scaled / 10 ^ k) ++ '.' :: padZeroes k (natToDigits (scaled % 10 ^ k))

/-- The version suffix of the deepseek branch (model.py lines 1238-1239 and
1247-1248): the last `-`-separated component of the trailing capture, kept
only when it starts with `v`. -/
def deepseekVersionSuffix (rest : List Char) : List Char :=
  let version := (rest.splitOn '-').getLastD []
  if version.head? = some 'v' then '-' :: version else []

/-- The Backend Selector `make_model` (model.py lines 1053-1497) as a
function of the model identifier; `batch_size` and `temperature` are passed
through to every constructed decoder unchanged and are omitted.  The branch
order, comparisons and constructed checkpoint names follow the source
line by line. -/
def makeModel (name : List Char) : MakeModelResult :=
  if name = chars "codegen-2b" then
    resolve Family.hfTorch (chars "Salesforce/codegen-2B-mono") false 512 none
  else if name = chars "codegen-6b" then
    resolve Family.hfTorch (chars "Salesforce/codegen-6B-mono") false 512 none
  else if name = chars "codegen-16b" then
    resolve Family.hfTorch (chars "Salesforce/codegen-16B-mono") false 512 none
  else if name = chars "codegen2-1b" then
    resolve Family.codegen2 (chars "Salesforce/codegen2-1B") false 512 none
  else if name = chars "codegen2-3b" then
    resolve Family.codegen2 (chars "Salesforce/codegen2-3_7B") false 512 none
  else if name = chars "codegen2-7b" then
    resolve Family.codegen2 (chars "Salesforce/codegen2-7B") false 512 none
  else if name = chars "codegen2-16b" then
    resolve Family.codegen2 (chars "Salesforce/codegen2-16B") false 512 none
  else if name = chars "polycoder" then
    resolve Family.hfTorch (chars "NinedayWang/PolyCoder-2.7B") false 512 none
  else if name = chars "santacoder" then
    resolve Family.santaCoder (chars "bigcode/santacoder") false 512 none
  else if name = chars "incoder-1b" then
    resolve Family.incoder (chars "facebook/incoder-1B") false 512 none
  else if name = chars "incoder-6b" then
    resolve Family.incoder (chars "facebook/incoder-6B") false 512 none
  else if name = chars "stablelm-7b" then
    resolve Family.hfTorch (chars "StabilityAI/stablelm-base-alpha-7b") false 512 none
  else if (chars "gpt-3.5-").isPrefixOf name || (chars "gpt-4-").isPrefixOf name then
    resolve Family.openAIChat name true 512 none
  else if (chars "claude").isPrefixOf name then
    resolve Family.anthropicMessage name true 512 none
  else if name = chars "gptneo-2b" then
    resolve Family.hfTorch (chars "EleutherAI/gpt-neo-2.7B") false 512 none
  else if name = chars "gpt-j" then
    resolve Family.hfTorch (chars "EleutherAI/gpt-j-6B") false 512 none
  else if (chars "starcoder").isPrefixOf name then
    match findStarcoder2 name with
    | none => MakeModelResult.indexError
    | some nb =>
        resolve Family.vllm (chars "bigcode/starcoder2-" ++ natToDigits nb ++ chars "b")
          false 512 (some (Rat.divInt (nb : Int) 1))
  else if name = chars "codet5p-2b" then
    resolve Family.codeT5P (chars "Salesforce/codet5p-2b") false 512 none
  else if name = chars "codet5p-6b" then
    resolve Family.codeT5P (chars "Salesforce/codet5p-6b") false 512 none
  else if name = chars "codet5p-16b" then
    resolve Family.codeT5P (chars "Salesforce/codet5p-16b") false 512 none
  else if (chars "code-llama-").isPrefixOf name then
    if (chars "instruct").isSuffixOf name then
      let nb := ((name.splitOn '-').getD 2 [])
      if ¬ (chars "b").isSuffixOf nb then MakeModelResult.assertionError
      else if nb = chars "70b" then
        resolve Family.codeLlamaInstruct70B (chars "codellama/CodeLlama-70B-Instruct-hf")
          true 512 none
      else
        resolve Family.codeLlamaInstructSmall
          (chars "codellama/CodeLlama-" ++ nb ++ chars "-Instruct-hf") true 512 none
    else if ¬ (chars "b").isSuffixOf name then MakeModelResult.assertionError
    else
      let nb := (name.splitOn '-').getLastD []
      if (chars "code-llama-multi").isPrefixOf name then
        resolve Family.vllm (chars "codellama/CodeLlama-" ++ nb ++ chars "-hf")
          false 512 none
      else
        resolve Family.vllm (chars "codellama/CodeLlama-" ++ nb ++ chars "-Python-hf")
          false 512 none
  else if (chars "deepseek-coder").isPrefixOf name then
    match findDeepseek name with
    | none => MakeModelResult.indexError
    | some qr =>
        if pyContains name (chars "instruct") = true then
          resolve Family.deepSeekInstruct
            (chars "deepseek-ai/deepseek-coder-" ++ ratDecimalStr qr.1 ++
              chars "b-instruct" ++ deepseekVersionSuffix qr.2) true 512 (some qr.1)
        else
          resolve Family.vllm
            (chars "deepseek-ai/deepseek-coder-" ++ ratDecimalStr qr.1 ++
              chars "b-base" ++ deepseekVersionSuffix qr.2) false 512 (some qr.1)
  else if name = chars "magicoder-s-ds-6.7b" then
    resolve Family.magicoder (chars "ise-uiuc/Magicoder-S-DS-6.7B") true 512 none
  else if name = chars "magicoder-s-cl-7b" then
    resolve Family.magicoder (chars "ise-uiuc/Magicoder-S-CL-7B") true 512 none
  else if name = chars "wizardcoder-33b-v1.1" then
    resolve Family.alpaca (chars "WizardLM/WizardCoder-33B-V1.1") true 512 none
  else if name = chars "wizardcoder-34b" then
    resolve Family.alpaca (chars "WizardLM/WizardCoder-Python-34B-V1.0") true 512 none
  else if name = chars "wizardcoder-15b" then
    resolve Family.alpaca (chars "WizardLM/WizardCoder-15B-V1.0") true 512 none
  else if name = chars "wizardcoder-7b" then
    resolve Family.alpaca (chars "WizardLM/WizardCoder-Python-7B-V1.0") true 512 none
  else if name = chars "mistral-7b-codealpaca" then
    resolve Family.hfTorch (chars "Nondzu/Mistral-7B-codealpaca-lora") false 512 none
  else if name = chars "zephyr-7b" then
    resolve Family.hfTorch (chars "HuggingFaceH4/zephyr-7b-beta") false 512 none
  else if name = chars "codebooga-34b" then
    resolve Family.hfTorch (chars "oobabooga/CodeBooga-34B-v0.1") false 512 none
  else if name = chars "code-13b" then
    resolve Family.code (chars "ajibawa-2023/Code-13B") true 512 none
  else if name = chars "code-33b" then
    resolve Family.code (chars "ajibawa-2023/Code-33B") true 512 none
  else if name = chars "phind-code-llama-34b-v2" then
    resolve Family.vllm (chars "Phind/Phind-CodeLlama-34B-v2") false 512 none
  else if name = chars "python-code-33b" then
    resolve Family.code (chars "ajibawa-2023/Python-Code-33B") true 512 none
  else if name = chars "python-code-13b" then
    resolve Family.code (chars "ajibawa-2023/Python-Code-13B") true 512 none
  else if name = chars "mistral-7b" then
    resolve Family.hfTorch (chars "mistralai/Mistral-7B-v0.1") false 512 none
  else if name = chars "dolphin-2.6" then
    resolve Family.chatML (chars "cognitivecomputations/dolphin-2.6-mixtral-8x7b")
      true (512 + 256) none
  else if name = chars "solar-10.7b-instruct" then
    resolve Family.solar (chars "upstage/SOLAR-10.7B-Instruct-v1.0") true 512 none
  else if name = chars "mistral-hermes-codepro-7b" then
    resolve Family.chatML (chars "beowolx/MistralHermes-CodePro-7B-v1") true (512 + 256) none
  else if name = chars "phi-2" then
    resolve Family.vllm (chars "microsoft/phi-2") false 512 none
  else if name = chars "openchat" then
    resolve Family.openChat (chars "openchat/openchat-3.5-0106") true 512 none
  else if name = chars "speechless-codellama-34b" then
    resolve Family.alpaca (chars "uukuguy/speechless-codellama-34b-v2.0") true 512 none
  else if name = chars "speechless-mistral-7b" then
    resolve Family.alpaca (chars "uukuguy/speechless-code-mistral-7b-v1.0") true 512 none
  else if name = chars "speechless-coder-ds-6.7b" then
    resolve Family.speechless (chars "uukuguy/speechless-coder-ds-6.7b") true 512 none
  else if name = chars "speechless-coding-7b-16k-tora" then
    resolve Family.speechless (chars "uukuguy/speechless-coding-7b-16k-tora") true 512 none
  else if name = chars "code-millenials-34b" then
    resolve Family.alpaca (chars "budecosystem/code-millenials-34b") true 512 none
  else if name = chars "xdan-l1-chat" then
    resolve Family.alpaca (chars "xDAN-AI/xDAN-L1-Chat-dpo-qlora-v1") true 512 none
  else if name = chars "stable-code-3b" then
    resolve Family.hfTorch (chars "stabilityai/stable-code-3b") false 512 none
  else if name = chars "xwincoder-34b" then
    resolve Family.xwinCoder (chars "Xwin-LM/XwinCoder-34B") true 512 none
  else if name = chars "zyte-1b" then
    resolve Family.zyte (chars "aihub-app/zyte-1B") true 512 none
  else if name = chars "white-rabbit-neo-33b-v1" then
    resolve Family.whiteRabbitNeo (chars "whiterabbitneo/WhiteRabbitNeo-33B-v-1")
      true 512 none
  else if pyContains name (chars "codegemma") = true then
    MakeModelResult.unboundLocalError
  else if name = chars "opencodeinterpreter-ds-6.7b" then
    resolve Family.openCodeInterpreter (chars "m-a-p/OpenCodeInterpreter-DS-6.7B")
      true 512 none
  else if name = chars "opencodeinterpreter-ds-33b" then
    resolve Family.openCodeInterpreter (chars "m-a-p/OpenCodeInterpreter-DS-33B")
      true 512 none
  else if name = chars "mistral-large-latest" then
    resolve Family.mistralChat (chars "mistral-large-latest") true 512 none
  else MakeModelResult.invalidArgument (chars "Invalid model name: " ++ name)

/- ### Claim C7: resolution of deepseek-coder-6.7b-instruct -/

/-- C7: the identifier `deepseek-coder-6.7b-instruct` resolves to the
DeepSeek instruct family with numeric size parameter 6.7 (as the exact
rational 67/10), with `conversational = true` and hence the conversational
budget 1024 rather than the completion budget 512. -/
theorem c7_deepseek_resolution :
    makeModel (chars "deepseek-coder-6.7b-instruct") =
      MakeModelResult.resolved
        { family := Family.deepSeekInstruct,
          hfName := chars "deepseek-ai/deepseek-coder-6.7b-instruct",
          conversational := true,
          max_new_tokens := 1024,
          sizeParam := some (Rat.divInt 67 10) } ∧
    decoderBaseMaxNew true 512 1024 = 1024 ∧
    decoderBaseMaxNew false 512 1024 = 512 := by
  exact ⟨by decide, rfl, rfl⟩

/- ### Claim C8: unresolvable identifiers -/

/-- C8 counterexample: the identifier `starcoder` enters the
`startswith("starcoder")` branch but does not match the `starcoder2-(\d+)b`
pattern, so `matches[0]` raises IndexError — not the InvalidArgument
(ValueError) failure the claim requires for identifiers matching no known
family or pattern. -/
theorem c8_counterexample :
    makeModel (chars "starcoder") = MakeModelResult.indexError ∧
    (makeModel (chars "starcoder")).isInvalid = false := by
  exact ⟨by decide, by decide⟩

/-- C8 (amended): identifiers matching none of the known names, prefixes or
patterns fall through to the ValueError (`Invalid model name: ...`), and
pattern-based identifiers resolve with a parsed numeric parameter; but an
identifier that matches a family prefix while failing that family's own
pattern or asserts raises a different error: IndexError for
`starcoder`/`deepseek-coder` pattern misses, AssertionError for
`code-llama-` identifiers not ending in `b`, and UnboundLocalError for every
`codegemma` identifier (the branch reads the never-assigned function-local
`re`). -/
theorem c8_amended_resolution :
    makeModel (chars "gpt5-nano") =
      MakeModelResult.invalidArgument (chars "Invalid model name: gpt5-nano") ∧
    makeModel (chars "starcoder2-15b") =
      MakeModelResult.resolved
        { family := Family.vllm, hfName := chars "bigcode/starcoder2-15b",
          conversational := false, max_new_tokens := 512,
          sizeParam := some (Rat.divInt 15 1) } ∧
    makeModel (chars "deepseek-coder-33b-base") =
      MakeModelResult.resolved
        { family := Family.vllm, hfName := chars "deepseek-ai/deepseek-coder-33b-base",
          conversational := false, max_new_tokens := 512,
          sizeParam := some (Rat.divInt 33 1) } ∧
    makeModel (chars "deepseek-coder-7x") = MakeModelResult.indexError ∧
    makeModel (chars "code-llama-multi") = MakeModelResult.assertionError ∧
    makeModel (chars "codegemma-7b") = MakeModelResult.unboundLocalError := by
  refine ⟨by decide, by decide, by decide, by decide, by decide, by decide⟩

/- ### Aliasing of the module-level EOS list (model.py lines 46, 101-105) -/

/-- One decoder construction, classified by its effect on the stop-marker
list object: `plainInit` is a construction that runs only
`DecoderBase.__init__`, whose `self.eos = EOS` (line 105) binds the decoder
to the module-level list object itself (no copy); `inPlaceAdd ms` is a
conversational subclass construction that then runs `self.eos += ms`
(e.g. ChatML at line 166), which extends the bound — i.e. the module-level
— list object in place; `freshAdd ms` is a subclass construction that
instead runs `self.eos = self.eos + extra` (e.g. IncoderDecoder at
line 609), which allocates a new list and leaves the module object
unchanged. -/
inductive ConstructOp
  | plainInit
  | inPlaceAdd (ms : List (List Char))
  | freshAdd (ms : List (List Char))

/-- Effect of one construction on the module-level `EOS` object, whose
current contents are `m`: the pair is (contents of the constructed
decoder's `eos` list right after construction, contents of the module-level
`EOS` object after construction). -/
def constructEOS : ConstructOp → List (List Char) → List (List Char) × List (List Char)
  | ConstructOp.plainInit, m => (m, m)
  | ConstructOp.inPlaceAdd ms, m => (m ++ ms, m ++ ms)
  | ConstructOp.freshAdd ms, m => (m ++ ms, m)

/-- Module-level `EOS` contents after a sequence of constructions. -/
def moduleEOSAfter (ops : List ConstructOp) (m : List (List Char)) : List (List Char) :=
  ops.foldl (fun acc op => (constructEOS op acc).2) m

theorem constructEOS_module_mem (x : List Char) (op : ConstructOp)
    (m : List (List Char)) (hx : x ∈ m) : x ∈ (constructEOS op m).2 := by
  cases op with
  | plainInit => exact hx
  | inPlaceAdd ms => exact List.mem_append_left ms hx
  | freshAdd ms => exact hx

theorem moduleEOSAfter_mem (x : List Char) :
    ∀ (ops : List ConstructOp) (m : List (List Char)), x ∈ m →
      x ∈ moduleEOSAfter ops m := by
  intro ops
  induction ops with
  | nil => intro m hx; exact hx
  | cons op ops ih =>
      intro m hx
      exact ih _ (constructEOS_module_mem x op m hx)

/- ### Claim C10: constructing a conversational decoder leaks its marker -/

/-- C10: `self.eos = EOS` aliases the module-level list and `self.eos += ms`
extends it in place, so once a ChatML-style decoder has added `"\n```"` to
the module list, every decoder constructed later — after any further
constructions of any kind — starts with a stop-marker list containing
`"\n```"`; and the construction is not effect-free: it changes the
module-level EOS list (here from its initial three markers). -/
theorem c10_eos_aliasing :
    (∀ (m : List (List Char)) (ops : List ConstructOp),
        chars "\n```" ∈
          (constructEOS ConstructOp.plainInit
            (moduleEOSAfter ops
              (constructEOS (ConstructOp.inPlaceAdd [chars "\n```"]) m).2)).1) ∧
    (constructEOS (ConstructOp.inPlaceAdd [chars "\n```"]) EOS).2 ≠ EOS := by
  constructor
  · intro m ops
    have h1 : chars "\n```" ∈ (constructEOS (ConstructOp.inPlaceAdd [chars "\n```"]) m).2 := by
      simp [constructEOS]
    exact moduleEOSAfter_mem (chars "\n```") ops _ h1
  · intro heq
    have := congrArg List.length heq
    simp [constructEOS, EOS] at this

end Evalplus
